import Mathlib

/-!
Shallow embedding of the minitor address pipeline.

Source files:
* src/address/test.py : country mapping, city and country extraction, region validator.
* src/address/address_generator.py : address heuristic filter, bounding box filter,
  address document assembly and in-run dedup.

Python strings are modelled by Lean String; str.lower is modelled by the ASCII
lowering Char.toLower (all inputs appearing in the verified properties are ASCII),
str.strip by dropping whitespace at both ends, dict lookup by association-list
lookup, and None-able values by Option.  The geonames gazetteer used by
city_in_country is external reference data (the geonamescache package), so the
embedding is parametrised by a Gazetteer value holding the country and city
tables in iteration order.
-/

/-- Models Python str.lower character-wise (ASCII range), i.e. Char.toLower. -/
def lowerStr (s : String) : String := ⟨s.data.map Char.toLower⟩

/-- Models Python str.strip: remove leading and trailing whitespace. -/
def pyStrip (s : String) : String :=
  ⟨((s.data.dropWhile Char.isWhitespace).reverse.dropWhile Char.isWhitespace).reverse⟩

/-- Models Python str.split(sep) for a one-character separator, on char lists:
"".split gives [""], separators delimit possibly empty fields. -/
def splitOnChar (sep : Char) : List Char → List (List Char)
  | [] => [[]]
  | c :: rest =>
    match splitOnChar sep rest with
    | [] => [[]]
    | d :: ds => if c = sep then [] :: d :: ds else (c :: d) :: ds

/-- Helper for pySplitWS: accumulates the current word (reversed) while scanning. -/
def pySplitWSAux : List Char → List Char → List (List Char)
  | [], acc => if acc.isEmpty then [] else [acc.reverse]
  | c :: rest, acc =>
    if c.isWhitespace then
      if acc.isEmpty then pySplitWSAux rest []
      else acc.reverse :: pySplitWSAux rest []
    else pySplitWSAux rest (c :: acc)

/-- Models Python str.split() with no argument: split on whitespace runs,
discarding empty fields. -/
def pySplitWS (s : String) : List String :=
  (pySplitWSAux s.data []).map (fun l => (⟨l⟩ : String))

/-- Models the Python substring test `needle in haystack`. -/
def strContains (haystack needle : String) : Bool :=
  haystack.data.tails.any (fun t => needle.data.isPrefixOf t)

/-- COUNTRY_MAPPING dict from src/address/test.py lines 7-46, as an association
list in insertion order. -/
def COUNTRY_MAPPING : List (String × String) := [
  ("korea, south", "south korea"),
  ("korea, north", "north korea"),
  ("cote d ivoire", "ivory coast"),
  ("côte d\x27ivoire", "ivory coast"),
  ("cote d\x27ivoire", "ivory coast"),
  ("the gambia", "gambia"),
  ("netherlands", "the netherlands"),
  ("holland", "the netherlands"),
  ("congo, democratic republic of the", "democratic republic of the congo"),
  ("drc", "democratic republic of the congo"),
  ("congo, republic of the", "republic of the congo"),
  ("burma", "myanmar"),
  ("bonaire", "bonaire, saint eustatius and saba"),
  ("usa", "united states"),
  ("us", "united states"),
  ("united states of america", "united states"),
  ("uk", "united kingdom"),
  ("great britain", "united kingdom"),
  ("britain", "united kingdom"),
  ("uae", "united arab emirates"),
  ("u.s.a.", "united states"),
  ("u.s.", "united states"),
  ("u.k.", "united kingdom")]

/-- Models `COUNTRY_MAPPING.get(s, s)`: dict lookup with the key itself as default. -/
def mapGet (s : String) : String := (COUNTRY_MAPPING.lookup s).getD s

/-- Models the country normalisation used by validate_address_region
(src/address/test.py line 279): `COUNTRY_MAPPING.get(x.lower(), x.lower())`. -/
def normalizeCountry (s : String) : String := mapGet (lowerStr s)

/-- Gazetteer data handed to city_in_country by get_geonames_data
(src/address/test.py lines 47-60).  countries holds (country code, country name)
pairs and cities holds (country code, city name) pairs, both in dict iteration
order.  This is external geonamescache reference data, hence a parameter. -/
structure Gazetteer where
  countries : List (String × String)
  cities : List (String × String)

/-- Embeds city_in_country (src/address/test.py lines 188-242): resolve the
country name to its code by exact case-insensitive match, then scan the cities
of that country, matching by exact name, first-word prefix (two-word candidates)
or second-word substring (two-word candidates). -/
def city_in_country (G : Gazetteer) (city_name country_name : String) : Bool :=
  if city_name = "" || country_name = "" then false
  else
    let cityLower := lowerStr city_name
    let countryLower := lowerStr country_name
    match G.countries.find? (fun p => pyStrip (lowerStr p.2) == pyStrip countryLower) with
    | none => false
    | some (code, _) =>
      if code = "" then false
      else
        let cityWords := pySplitWS cityLower
        G.cities.any (fun cd =>
          cd.1 == code &&
          (let nameL := lowerStr cd.2
           (pyStrip nameL == pyStrip cityLower) ||
           (decide (2 ≤ cityWords.length) && nameL.startsWith (cityWords.headD "")) ||
           (decide (2 ≤ cityWords.length) && strContains nameL (cityWords.getD 1 ""))))

/-- Embeds the candidate test of the inner loop of extract_city_country
(src/address/test.py lines 177-184): first candidate without a digit that
city_in_country confirms. -/
def tryCandidates (G : Gazetteer) (country : String) (cands : List String) : Option String :=
  cands.find? (fun cand => !(cand.data.any Char.isDigit) && city_in_country G cand country)

/-- Embeds the word loop of extract_city_country (src/address/test.py lines
166-184): for each word position, try the word itself then the previous word
joined with it. -/
def scanWords (G : Gazetteer) (country : String) : Option String → List String → Option String
  | _, [] => none
  | prev, w :: rest =>
    let cands := w :: (match prev with | none => [] | some p => [p ++ " " ++ w])
    match tryCandidates G country cands with
    | some c => some c
    | none => scanWords G country (some w) rest

/-- Embeds the right-to-left segment loop of extract_city_country
(src/address/test.py lines 153-184), the parts list already reversed. -/
def findCityInParts (G : Gazetteer) (country : String) : List String → Option String
  | [] => none
  | part :: rest =>
    if part = "" then findCityInParts G country rest
    else
      match scanWords G country none (pySplitWS part) with
      | some c => some c
      | none => findCityInParts G country rest

/-- Embeds the country-resolution block of extract_city_country
(src/address/test.py lines 121-144): returns the normalised country together
with the flag recording that two segments were consumed.  On every source path
country_checking_name equals normalized_country, so a single string is
returned. -/
def resolveCountry (parts : List String) (two_parts : Bool) : String × Bool :=
  let lastPart := parts.getLastD ""
  let singleNorm := mapGet lastPart
  if two_parts then
    let twoRaw := (parts.getD (parts.length - 2) "") ++ ", " ++ lastPart
    let twoNorm := mapGet twoRaw
    if twoRaw ≠ twoNorm then (twoNorm, true) else (singleNorm, false)
  else (singleNorm, false)

/-- Embeds the tail of extract_city_country (src/address/test.py lines 146-186):
empty country means extraction failure, otherwise search the segments right to
left, excluding the one or two country segments. -/
def finishExtract (G : Gazetteer) (nc : String) (usedTwo : Bool) (parts : List String) :
    String × String :=
  if nc = "" then ("", "")
  else
    let excludeCount := if usedTwo then 2 else 1
    let candidateParts := (parts.take (parts.length - excludeCount)).reverse
    match findCityInParts G nc candidateParts with
    | some c => (c, nc)
    | none => ("", nc)

/-- Embeds extract_city_country (src/address/test.py lines 89-186).  The country
is the last comma segment (or the last two when the two_parts flag finds a
distinct two-segment mapping); the city is searched right to left over the
remaining segments. -/
def extract_city_country (G : Gazetteer) (address : String) (two_parts : Bool) :
    String × String :=
  if address = "" then ("", "")
  else
    let addr := lowerStr address
    let parts := (splitOnChar ',' addr.data).map (fun p => pyStrip ⟨p⟩)
    if parts.length < 2 then ("", "")
    else
      let rc := resolveCountry parts two_parts
      finishExtract G rc.1 rc.2 parts

/-- WESTERN_SAHARA_CITIES list from check_western_sahara_cities
(src/address/test.py lines 75-77). -/
def WESTERN_SAHARA_CITIES : List String :=
  ["laayoune", "dakhla", "boujdour", "es semara", "sahrawi", "tifariti", "aousserd"]

/-- Embeds check_western_sahara_cities (src/address/test.py lines 61-86). -/
def check_western_sahara_cities (generated_address : String) : Bool :=
  if generated_address = "" then false
  else
    let genLower := lowerStr generated_address
    WESTERN_SAHARA_CITIES.any (fun c => strContains genLower c)

/-- OTHER_SPECIAL_REGIONS list from validate_address_region
(src/address/test.py line 270). -/
def OTHER_SPECIAL_REGIONS : List String := ["luhansk", "crimea", "donetsk"]

/-- Embeds validate_address_region (src/address/test.py lines 245-301):
special handling for disputed regions, then extraction plus the tri-criteria
match against the seed. -/
def validate_address_region (G : Gazetteer) (generated_address seed_address : String) :
    Bool :=
  if generated_address = "" || seed_address = "" then false
  else
    let seedLower := lowerStr seed_address
    if seedLower == "west sahara" || seedLower == "western sahara" then
      check_western_sahara_cities generated_address
    else if OTHER_SPECIAL_REGIONS.contains seedLower then
      strContains (lowerStr generated_address) seedLower
    else
      let gen := extract_city_country G generated_address (seed_address.data.contains ',')
      let genCity := gen.1
      let genCountry := gen.2
      let seedMapped := mapGet seedLower
      if genCity = "" then false
      else if genCountry = "" then false
      else
        ((!(genCity == "")) && (!(seedLower == "")) && (genCity == seedLower)) ||
        ((!(genCountry == "")) && (!(seedLower == "")) && (genCountry == seedLower)) ||
        ((!(genCountry == "")) && (!(seedMapped == "")) && (genCountry == seedMapped))

/-- Models the regex class of word characters (ASCII fragment of \w):
letters, digits and underscore. -/
def isWordChar (c : Char) : Bool := c.isAlphanum || c == Char.ofNat 95

/-- special_chars blacklist from looks_like_address
(src/address/address_generator.py line 99): backtick, colon, percent, at sign,
asterisk, caret, square brackets, curly braces, underscore, guillemets. -/
def special_chars : List Char :=
  [Char.ofNat 96, ':', '%', '@', '*', Char.ofNat 94, Char.ofNat 91, Char.ofNat 93,
   Char.ofNat 123, Char.ofNat 125, Char.ofNat 95, Char.ofNat 171, Char.ofNat 187]

/-- Embeds looks_like_address (src/address/address_generator.py lines 77-103):
lowercase and strip, then the conjunctive chain of heuristic gates, each failing
gate returning false. -/
def looks_like_address (address : String) : Bool :=
  let addr := lowerStr (pyStrip address)
  let compact := (pyStrip addr).data.filter isWordChar
  if compact.length < 30 || 300 < compact.length then false
  else
    let letterCount := (addr.data.filter (fun c => isWordChar c && !c.isDigit)).length
    if letterCount < 20 then false
    else if addr.data.all (fun c => !c.isAlpha) || (addr.data.dedup).length < 5 then false
    else
      let addrNum := addr.data.filter (fun c => !(c == '-') && !(c == ';'))
      let sections := (splitOnChar ',' addrNum).map (fun s => pyStrip ⟨s⟩)
      let sectionsWithNumbers := sections.filter (fun s => s.data.any Char.isDigit)
      if sectionsWithNumbers.length < 1 || addr.data.count ',' < 2 then false
      else if special_chars.any (fun ch => addr.data.contains ch) then false
      else true

/-- Property bag of an AddressCandidate as returned by the geocoding API
(feature.properties in src/address/address_generator.py).  Absent keys are
none; coordinates are modelled as rationals (exact real arithmetic in place of
IEEE floats). -/
structure Props where
  name : Option String := none
  housenumber : Option String := none
  street : Option String := none
  locality : Option String := none
  district : Option String := none
  city : Option String := none
  state : Option String := none
  postcode : Option String := none
  country : Option String := none
  countrycode : Option String := none
  osm_type : Option String := none
  osm_id : Option String := none
  extent : Option (List ℚ) := none
deriving DecidableEq, Repr

/-- Raw geocoding API record: a property bag. -/
structure Feature where
  properties : Props
deriving DecidableEq, Repr

/-- AddressDocument built by create_address_document
(src/address/address_generator.py lines 239-249).  The created_at wall-clock
timestamp is outside the embedding. -/
structure AddressDocument where
  osm : String
  country : String
  country_name : String
  city : String
  street_name : String
  status : Int
  worker_id : Int
  fulladdress : String
deriving DecidableEq, Repr

/-- Embeds calculate_bbox_area (src/address/address_generator.py lines 165-179)
over exact rationals: missing or malformed extent yields top (the float inf of
the source); otherwise the equirectangular area, with math.cos of math.radians
of the average latitude abstracted as the parameter cosRad. -/
def calculate_bbox_area (cosRad : ℚ → ℚ) : Option (List ℚ) → WithTop ℚ
  | none => ⊤
  | some [min_lon, min_lat, max_lon, max_lat] =>
    let lat_diff := |max_lat - min_lat|
    let lon_diff := |max_lon - min_lon|
    let lat_meters := lat_diff * 111000
    let avg_lat := (min_lat + max_lat) / 2
    let lon_meters := lon_diff * 111000 * cosRad avg_lat
    ((lat_meters * lon_meters : ℚ) : WithTop ℚ)
  | some _ => ⊤

/-- Configured threshold self.max_bbox_area = 100 square meters
(src/address/address_generator.py line 23). -/
def max_bbox_area : ℚ := 100

/-- Single-feature test of filter_by_bbox (src/address/address_generator.py
lines 181-194): the extent must be present and non-empty (Python truthiness)
and its area at most the threshold. -/
def passes_bbox_filter (cosRad : ℚ → ℚ) (f : Feature) : Bool :=
  match f.properties.extent with
  | none => false
  | some l =>
    !l.isEmpty && decide (calculate_bbox_area cosRad (some l) ≤ (max_bbox_area : WithTop ℚ))

/-- Embeds filter_by_bbox (src/address/address_generator.py lines 181-194).
The final random.shuffle permutes the kept features; the embedding keeps source
order, which preserves membership. -/
def filter_by_bbox (cosRad : ℚ → ℚ) (features : List Feature) : List Feature :=
  features.filter (passes_bbox_filter cosRad)

/-- Embeds the full-address assembly of create_address_document
(src/address/address_generator.py lines 220-227): every present, non-empty
field in fixed order, joined by comma-space. -/
def fullAddressOf (props : Props) : String :=
  String.intercalate ", "
    (([props.name, props.housenumber, props.street, props.locality, props.district,
       props.city, props.state, props.postcode, props.country].filterMap id).filter
      (fun v => !(v == "")))

/-- Embeds create_address_document (src/address/address_generator.py lines
196-249) with the processed-address set passed and returned explicitly
(self.processed_addresses in the source): require non-empty country, city,
street, OSM type and id, assemble the full address, reject short, implausible
or already-processed strings, otherwise record and emit the document. -/
def create_address_document (worker_id : Int) (processed : List String) (f : Feature) :
    Option AddressDocument × List String :=
  let props := f.properties
  if props.country.getD "" = "" || props.city.getD "" = "" || props.street.getD "" = "" then
    (none, processed)
  else
    let osm_type := props.osm_type.getD ""
    let osm_id := props.osm_id.getD ""
    if osm_type = "" || osm_id = "" then (none, processed)
    else
      let osm := osm_type ++ " " ++ osm_id
      let fulladdress := fullAddressOf props
      if fulladdress = "" || (pyStrip fulladdress).length < 10 ||
          !looks_like_address fulladdress || processed.contains fulladdress then
        (none, processed)
      else
        (some { osm := osm, country := props.countrycode.getD "Unknown",
                country_name := props.country.getD "Unknown",
                city := props.city.getD "Unknown",
                street_name := props.street.getD "", status := 0,
                worker_id := worker_id, fulladdress := fulladdress },
         fulladdress :: processed)

/-- Embeds the document-collection loop of generate_addresses_random
(src/address/address_generator.py lines 366-377): stop once target_docs
documents are collected, otherwise run create_address_document on each feature,
keeping the produced documents and threading the processed set. -/
def collectDocs (worker_id : Int) (target_docs : Nat) :
    List Feature → List AddressDocument → List String → List AddressDocument × List String
  | [], docs, processed => (docs, processed)
  | f :: rest, docs, processed =>
    if target_docs ≤ docs.length then (docs, processed)
    else
      match create_address_document worker_id processed f with
      | (some d, p) => collectDocs worker_id target_docs rest (docs ++ [d]) p
      | (none, p) => collectDocs worker_id target_docs rest docs p

/-- One batch of the generation run (src/address/address_generator.py lines
355-377): bounding-box filter, then document collection starting from the
processed set accumulated so far in the run. -/
def processBatch (cosRad : ℚ → ℚ) (worker_id : Int) (target_docs : Nat)
    (processed : List String) (features : List Feature) :
    List AddressDocument × List String :=
  collectDocs worker_id target_docs (filter_by_bbox cosRad features) [] processed

/-- Small concrete gazetteer used by the witnesses, holding the country codes
and cities the witness inputs mention. -/
def witnessGazetteer : Gazetteer :=
  { countries := [("GB", "United Kingdom"), ("YE", "Yemen"), ("AF", "Afghanistan")],
    cities := [("GB", "London"), ("YE", "Sanaa"), ("AF", "Kabul")] }

/-- Concrete well-formed candidate property bag used by the generator-side
witnesses. -/
def witnessProps : Props :=
  { housenumber := some "221", street := some "Baker Street", locality := some "Marylebone",
    city := some "London", postcode := some "NW1 6XE", country := some "United Kingdom",
    countrycode := some "GB", osm_type := some "W", osm_id := some "123",
    extent := some [0, 0, 0, 0] }

/-- The AddressDocument that create_address_document builds from witnessProps. -/
def witnessDoc : AddressDocument :=
  { osm := "W 123", country := "GB", country_name := "United Kingdom", city := "London",
    street_name := "Baker Street", status := 0, worker_id := 11,
    fulladdress := "221, Baker Street, Marylebone, London, NW1 6XE, United Kingdom" }

/-! ### Helper lemmas -/

/-- Unfolding lemma: packing a valid codepoint and reading it back is the identity. -/
theorem toNat_ofNat_valid (n : Nat) (h : n.isValidChar) : (Char.ofNat n).toNat = n := by
  rw [Char.ofNat, dif_pos h]; rfl

/-- ASCII lowering is idempotent on characters. -/
theorem toLower_toLower (c : Char) : c.toLower.toLower = c.toLower := by
  unfold Char.toLower
  by_cases h : c.toNat ≥ 65 ∧ c.toNat ≤ 90
  · rw [if_pos h]
    have hv : (c.toNat + 32).isValidChar := by
      rcases h with ⟨h1, h2⟩
      left
      omega
    have ht : (Char.ofNat (c.toNat + 32)).toNat = c.toNat + 32 := toNat_ofNat_valid _ hv
    rw [if_neg]
    rw [ht]
    omega
  · rw [if_neg h, if_neg h]

/-- Characters outside the uppercase ASCII range are fixed by lowering. -/
theorem toLower_eq_self (c : Char) (h : ¬(c.toNat ≥ 65 ∧ c.toNat ≤ 90)) :
    c.toLower = c := by
  unfold Char.toLower
  rw [if_neg h]

/-- Lowering a string twice equals lowering it once. -/
theorem lowerStr_idem (s : String) : lowerStr (lowerStr s) = lowerStr s := by
  unfold lowerStr
  apply congrArg String.mk
  show (s.data.map Char.toLower).map Char.toLower = s.data.map Char.toLower
  rw [List.map_map]
  exact List.map_congr_left (fun c _ => toLower_toLower c)

/-- Values found by association-list lookup are values of the list. -/
theorem lookup_mem_values {α β : Type} [BEq α] {l : List (α × β)} {k : α} {v : β}
    (h : l.lookup k = some v) : v ∈ l.map Prod.snd := by
  induction l with
  | nil => simp [List.lookup] at h
  | cons p rest ih =>
    obtain ⟨k1, v1⟩ := p
    rw [List.lookup] at h
    cases hb : (k == k1) with
    | true => rw [hb] at h; simp at h; simp [h]
    | false => rw [hb] at h; simp [ih h]

/-! ### C6 : degenerate bounding-box areas -/

/-- C6: calculate_bbox_area returns top (the float infinity of the source) for a
missing extent and for any extent list whose length is not 4, and returns 0 for
every 4-element extent whose latitude span or longitude span is 0. -/
theorem c6_bbox_area_degenerate :
    ∀ cosRad : ℚ → ℚ,
      calculate_bbox_area cosRad none = ⊤ ∧
      (∀ l : List ℚ, l.length ≠ 4 → calculate_bbox_area cosRad (some l) = ⊤) ∧
      (∀ a b c d : ℚ, |d - b| = 0 ∨ |c - a| = 0 →
        calculate_bbox_area cosRad (some [a, b, c, d]) = 0) := by
  intro cosRad
  refine ⟨rfl, ?_, ?_⟩
  · intro l hl
    match l with
    | [] => rfl
    | [_] => rfl
    | [_, _] => rfl
    | [_, _, _] => rfl
    | [_, _, _, _] => exact absurd rfl hl
    | _ :: _ :: _ :: _ :: _ :: _ => rfl
  · intro a b c d h
    rcases h with h | h <;>
      simp only [calculate_bbox_area, h, zero_mul, mul_zero] <;>
      exact WithTop.coe_zero

/-- Witness for C6 at concrete inputs. -/
theorem c6_bbox_area_degenerate_witness :
    calculate_bbox_area (fun _ => 1) none = ⊤ ∧
    calculate_bbox_area (fun _ => 1) (some [1, 2, 3]) = ⊤ ∧
    calculate_bbox_area (fun _ => 1) (some [0, 5, 9, 5]) = 0 :=
  ⟨(c6_bbox_area_degenerate _).1,
   (c6_bbox_area_degenerate _).2.1 [1, 2, 3] (by decide),
   (c6_bbox_area_degenerate _).2.2 0 5 9 5 (Or.inl (by simp))⟩

/-! ### C7 : country normalisation idempotence -/

/-- Every canonical value of COUNTRY_MAPPING is a fixed point of normalisation. -/
theorem normalize_fixed_on_values :
    ∀ v ∈ COUNTRY_MAPPING.map Prod.snd, normalizeCountry v = v := by decide

/-- C7: country normalisation (lowercase, then COUNTRY_MAPPING lookup with
fallback to the lowered string) fixes unmapped already-lowercase names and every
canonical value, is idempotent on every string, and sends USA and U.S.A. to
united states. -/
theorem c7_normalize_idempotent :
    (∀ x : String, COUNTRY_MAPPING.lookup x = none → lowerStr x = x →
      normalizeCountry x = x) ∧
    (∀ k v : String, (k, v) ∈ COUNTRY_MAPPING → normalizeCountry v = v) ∧
    (∀ x : String, normalizeCountry (normalizeCountry x) = normalizeCountry x) ∧
    normalizeCountry "USA" = "united states" ∧
    normalizeCountry "U.S.A." = "united states" := by
  refine ⟨?_, ?_, ?_, by decide, by decide⟩
  · intro x hnone hlow
    unfold normalizeCountry mapGet
    rw [hlow, hnone]
    rfl
  · intro k v hmem
    exact normalize_fixed_on_values v (List.mem_map_of_mem Prod.snd hmem)
  · intro x
    unfold normalizeCountry mapGet
    cases hl : COUNTRY_MAPPING.lookup (lowerStr x) with
    | none =>
      simp only [hl, Option.getD_none]
      rw [lowerStr_idem, hl]
      rfl
    | some v =>
      simp only [hl, Option.getD_some]
      have := normalize_fixed_on_values v (lookup_mem_values hl)
      unfold normalizeCountry mapGet at this
      exact this

/-- Witness for C7 at concrete inputs. -/
theorem c7_normalize_idempotent_witness :
    normalizeCountry "xyz" = "xyz" ∧
    normalizeCountry "myanmar" = "myanmar" ∧
    normalizeCountry (normalizeCountry "Burma") = normalizeCountry "Burma" :=
  ⟨c7_normalize_idempotent.1 "xyz" (by decide) (by decide),
   c7_normalize_idempotent.2.1 "burma" "myanmar" (by decide),
   c7_normalize_idempotent.2.2.1 "Burma"⟩

/-! ### C9 and C10 : extraction invariants -/

/-- A comma in the lowered string comes from a comma in the original. -/
theorem comma_mem_lowerStr {s : String} (h : ',' ∈ (lowerStr s).data) : ',' ∈ s.data := by
  unfold lowerStr at h
  have h2 : ',' ∈ s.data.map Char.toLower := h
  rcases List.mem_map.1 h2 with ⟨d, hd, hld⟩
  by_cases hu : d.toNat ≥ 65 ∧ d.toNat ≤ 90
  · exfalso
    have hv : (d.toNat + 32).isValidChar := by left; omega
    have : (Char.toLower d).toNat = d.toNat + 32 := by
      unfold Char.toLower
      rw [if_pos hu]
      exact toNat_ofNat_valid _ hv
    rw [hld] at this
    have hc : (',').toNat = 44 := rfl
    omega
  · rw [toLower_eq_self d hu] at hld
    rw [hld] at hd
    exact hd

/-- Splitting a list that does not contain the separator gives the whole list. -/
theorem splitOnChar_no_sep (sep : Char) (l : List Char) (h : sep ∉ l) :
    splitOnChar sep l = [l] := by
  induction l with
  | nil => rfl
  | cons c rest ih =>
    have hc : c ≠ sep := fun e => h (e ▸ List.mem_cons_self c rest)
    have hr : sep ∉ rest := fun m => h (List.mem_cons_of_mem c m)
    unfold splitOnChar
    rw [ih hr]
    simp [fun e => hc e]

/-- Case shape of finishExtract: the result is the pair of empty strings or has
a non-empty country component. -/
theorem finishExtract_shape (G : Gazetteer) (nc : String) (usedTwo : Bool)
    (parts : List String) :
    finishExtract G nc usedTwo parts = ("", "") ∨
      (finishExtract G nc usedTwo parts).2 ≠ "" := by
  simp only [finishExtract]
  split
  · left; rfl
  · rename_i hnc
    right
    split <;> simpa using hnc

/-- Case shape of extract_city_country: the result is the pair of empty strings
or has a non-empty country component. -/
theorem extract_shape (G : Gazetteer) (address : String) (tp : Bool) :
    extract_city_country G address tp = ("", "") ∨
      (extract_city_country G address tp).2 ≠ "" := by
  simp only [extract_city_country]
  split
  · left; rfl
  · split
    · left; rfl
    · exact finishExtract_shape _ _ _ _

/-- C9: whenever extraction returns an empty country, the city is empty too. -/
theorem c9_no_city_without_country (G : Gazetteer) (address : String) (tp : Bool)
    (h : (extract_city_country G address tp).2 = "") :
    (extract_city_country G address tp).1 = "" := by
  rcases extract_shape G address tp with he | hne
  · rw [he]
  · exact absurd h hne

/-- Witness for C9 at a concrete input. -/
theorem c9_no_city_without_country_witness :
    (extract_city_country ⟨[], []⟩ "no commas here" false).1 = "" :=
  c9_no_city_without_country ⟨[], []⟩ "no commas here" false (by decide)

/-- C10: a non-empty address with no comma splits into a single segment, so
extraction returns the pair of empty strings, even for a bare country name. -/
theorem c10_single_segment_extract_empty (G : Gazetteer) (address : String) (tp : Bool)
    (hne : address ≠ "") (hcomma : ',' ∉ address.data) :
    extract_city_country G address tp = ("", "") := by
  have h2 : ',' ∉ (lowerStr address).data := fun h => hcomma (comma_mem_lowerStr h)
  simp only [extract_city_country]
  rw [if_neg hne, splitOnChar_no_sep _ _ h2]
  simp

/-- Witness for C10: the alias-mapped country name USA alone extracts nothing. -/
theorem c10_single_segment_extract_empty_witness :
    extract_city_country ⟨[], []⟩ "USA" false = ("", "") :=
  c10_single_segment_extract_empty ⟨[], []⟩ "USA" false (by decide) (by decide)

/-! ### C5 : blacklisted symbols always reject -/

/-- Membership survives dropWhile when the predicate fails on the element. -/
theorem mem_dropWhile {p : Char → Bool} {l : List Char} {c : Char}
    (hc : c ∈ l) (hp : p c = false) : c ∈ l.dropWhile p := by
  induction l with
  | nil => cases hc
  | cons a rest ih =>
    cases ha : p a
    · simpa [List.dropWhile_cons, ha] using hc
    · rcases List.mem_cons.1 hc with rfl | hr
      · rw [ha] at hp; cases hp
      · simpa [List.dropWhile_cons, ha] using ih hr

/-- Non-whitespace characters survive stripping. -/
theorem mem_pyStrip {s : String} {c : Char}
    (hc : c ∈ s.data) (hw : c.isWhitespace = false) : c ∈ (pyStrip s).data := by
  unfold pyStrip
  show c ∈ ((s.data.dropWhile _).reverse.dropWhile _).reverse
  rw [List.mem_reverse]
  apply mem_dropWhile _ hw
  rw [List.mem_reverse]
  exact mem_dropWhile hc hw

/-- Characters fixed by lowering survive lowering the string. -/
theorem mem_lowerStr_self {s : String} {c : Char}
    (hc : c ∈ s.data) (hfix : c.toLower = c) : c ∈ (lowerStr s).data := by
  unfold lowerStr
  show c ∈ s.data.map Char.toLower
  exact hfix ▸ List.mem_map_of_mem Char.toLower hc

/-- C5: any input containing one of the blacklisted symbol characters is
rejected by looks_like_address, regardless of the rest of its structure. -/
theorem c5_blacklist_rejects (address : String) (c : Char)
    (hc : c ∈ special_chars) (hm : c ∈ address.data) :
    looks_like_address address = false := by
  have hfix : c.toLower = c := by fin_cases hc <;> decide
  have hw : c.isWhitespace = false := by fin_cases hc <;> decide
  have hmem : c ∈ (lowerStr (pyStrip address)).data :=
    mem_lowerStr_self (mem_pyStrip hm hw) hfix
  simp only [looks_like_address]
  split
  · rfl
  split
  · rfl
  split
  · rfl
  split
  · rfl
  split
  · rfl
  · rename_i hno
    exfalso
    apply hno
    rw [List.any_eq_true]
    refine ⟨c, hc, ?_⟩
    simpa [List.contains] using hmem

/-- Witness for C5: an at sign inside an otherwise well-formed address. -/
theorem c5_blacklist_rejects_witness :
    looks_like_address
      "221B Baker Street, Marylebone, London @ Westminster, NW1 6XE, United Kingdom"
      = false :=
  c5_blacklist_rejects _ '@' (by decide) (by decide)

/-! ### C3 : disputed-region special cases of the region matcher -/

/-- C3: for Western-Sahara seeds the validator succeeds exactly when one of the
fixed city names occurs in the lowered generated address, and for the seeds
luhansk, crimea, donetsk exactly when the literal seed occurs in the lowered
generated address; no gazetteer extraction is involved in either case. -/
theorem c3_special_regions (G : Gazetteer) (gen seed : String) :
    ((lowerStr seed = "west sahara" ∨ lowerStr seed = "western sahara") →
      (validate_address_region G gen seed = true ↔
        ∃ c ∈ WESTERN_SAHARA_CITIES, strContains (lowerStr gen) c = true)) ∧
    (lowerStr seed ∈ OTHER_SPECIAL_REGIONS →
      (validate_address_region G gen seed = true ↔
        strContains (lowerStr gen) (lowerStr seed) = true)) := by
  constructor
  · intro hws
    have hseed : ¬(seed = "") := by
      intro e; subst e; rcases hws with h | h <;> exact absurd h (by decide)
    by_cases hg : gen = ""
    · subst hg
      have hv : validate_address_region G "" seed = false := by
        simp [validate_address_region]
      rw [hv]
      exact iff_of_false (by simp) (by decide)
    · rcases hws with h | h <;>
        simp [validate_address_region, h, check_western_sahara_cities, hg, hseed,
          List.any_eq_true]
  · intro hr
    simp only [OTHER_SPECIAL_REGIONS, List.mem_cons, List.not_mem_nil, or_false] at hr
    have hseed : ¬(seed = "") := by
      intro e; subst e; rcases hr with h | h | h <;> exact absurd h (by decide)
    by_cases hg : gen = ""
    · subst hg
      have hv : validate_address_region G "" seed = false := by
        simp [validate_address_region]
      rw [hv]
      refine iff_of_false (by simp) ?_
      rcases hr with h | h | h <;> rw [show lowerStr "" = "" from rfl, h] <;> decide
    · rcases hr with h | h | h <;>
        simp [validate_address_region, h, hg, hseed, OTHER_SPECIAL_REGIONS]

/-- Witness for C3: the Crimea example from the specification. -/
theorem c3_special_regions_witness :
    validate_address_region ⟨[], []⟩ "some address, Crimea" "crimea" = true :=
  ((c3_special_regions ⟨[], []⟩ "some address, Crimea" "crimea").2 (by decide)).mpr
    (by decide)

/-! ### C1 : canonical extraction examples -/

/-- C1: on the canonical examples, the country is the last comma segment and the
city is the first gazetteer-confirmed right-to-left candidate.  For the London
address the single gazetteer fact needed is that london is confirmed as a city
of united kingdom; the Yemen example needs no gazetteer fact because its only
candidate segment contains a digit and is skipped. -/
theorem c1_extract_canonical_examples :
    (∀ G : Gazetteer, city_in_country G "london" "united kingdom" = true →
      extract_city_country G
        "115 New Cavendish Street, London W1T 5DU, United Kingdom" false
        = ("london", "united kingdom")) ∧
    (∀ G : Gazetteer, extract_city_country G "6, Yemen" false = ("", "yemen")) := by
  constructor
  · intro G h
    simp only [extract_city_country]
    rw [if_neg (by decide)]
    have hparts : (splitOnChar ','
        (lowerStr "115 New Cavendish Street, London W1T 5DU, United Kingdom").data).map
        (fun p => pyStrip ⟨p⟩)
        = ["115 new cavendish street", "london w1t 5du", "united kingdom"] := by decide
    rw [hparts]
    rw [if_neg (by decide)]
    rw [show resolveCountry ["115 new cavendish street", "london w1t 5du", "united kingdom"]
      false = ("united kingdom", false) from by decide]
    simp only [finishExtract]
    rw [if_neg (by decide)]
    rw [show (List.take
        ((["115 new cavendish street", "london w1t 5du", "united kingdom"] : List String).length -
          if false = true then 2 else 1)
        ["115 new cavendish street", "london w1t 5du", "united kingdom"]).reverse
        = ["london w1t 5du", "115 new cavendish street"] from by decide]
    simp only [findCityInParts]
    rw [if_neg (by decide)]
    rw [show pySplitWS "london w1t 5du" = ["london", "w1t", "5du"] from by decide]
    simp only [scanWords, tryCandidates, List.find?]
    simp [h]
  · intro G
    rfl

/-- Witness for C1 at a concrete gazetteer that confirms london in the
united kingdom. -/
theorem c1_extract_canonical_examples_witness :
    city_in_country witnessGazetteer "london" "united kingdom" = true ∧
    extract_city_country witnessGazetteer
      "115 New Cavendish Street, London W1T 5DU, United Kingdom" false
      = ("london", "united kingdom") ∧
    extract_city_country witnessGazetteer "6, Yemen" false = ("", "yemen") :=
  ⟨by decide,
   c1_extract_canonical_examples.1 witnessGazetteer (by decide),
   c1_extract_canonical_examples.2 witnessGazetteer⟩

/-! ### C2 : country seeds against generated addresses -/

/-- Counterexample to C2 as stated: the generated address 6, Afghanistan has an
extracted country that normalises to afghanistan, yet the validator returns
false, because extraction finds no city (the only candidate segment is the
digit 6) and validate_address_region fails immediately on an empty city. -/
theorem c2_seed_country_counterexample :
    (extract_city_country witnessGazetteer "6, Afghanistan" false).2 = "afghanistan" ∧
    normalizeCountry (extract_city_country witnessGazetteer "6, Afghanistan" false).2
      = "afghanistan" ∧
    validate_address_region witnessGazetteer "6, Afghanistan" "Afghanistan" = false :=
  ⟨by decide, by decide, by decide⟩

/-- C2 amended: a seed of Afghanistan matches any generated address whose
extraction yields the country afghanistan together with a non-empty city. -/
theorem c2_country_match_with_city (G : Gazetteer) (addr city : String)
    (hx : extract_city_country G addr false = (city, "afghanistan"))
    (hcity : city ≠ "") :
    validate_address_region G addr "Afghanistan" = true := by
  have haddr : ¬(addr = "") := by
    intro e; subst e
    rw [show extract_city_country G "" false = ("", "") from rfl] at hx
    injection hx with h1 h2
    exact hcity h1.symm
  simp only [validate_address_region]
  rw [show lowerStr "Afghanistan" = "afghanistan" from rfl]
  rw [if_neg (by simp [haddr])]
  rw [if_neg (by decide)]
  rw [if_neg (by decide)]
  rw [show ("Afghanistan" : String).data.contains ',' = false from rfl]
  rw [hx]
  simp [hcity, show mapGet "afghanistan" = "afghanistan" from by decide]

/-- Witness for the amended C2 at a concrete address and gazetteer. -/
theorem c2_country_match_with_city_witness :
    validate_address_region witnessGazetteer "12 Street, Kabul, Afghanistan" "Afghanistan"
      = true :=
  c2_country_match_with_city witnessGazetteer "12 Street, Kabul, Afghanistan" "kabul"
    (by decide) (by decide)

/-! ### C8 and C4 : document assembly invariants -/

/-- Success case of create_address_document: every gate passed and the full
address was recorded at the head of the processed set. -/
theorem create_some_spec {wid : Int} {p : List String} {f : Feature} {d : AddressDocument}
    {p' : List String} (h : create_address_document wid p f = (some d, p')) :
    f.properties.country.getD "" ≠ "" ∧ f.properties.city.getD "" ≠ "" ∧
    f.properties.street.getD "" ≠ "" ∧ f.properties.osm_type.getD "" ≠ "" ∧
    f.properties.osm_id.getD "" ≠ "" ∧
    d.fulladdress = fullAddressOf f.properties ∧
    10 ≤ (pyStrip d.fulladdress).length ∧
    looks_like_address d.fulladdress = true ∧
    d.fulladdress ∉ p ∧
    p' = d.fulladdress :: p := by
  simp only [create_address_document] at h
  split at h
  · simp at h
  · split at h
    · simp at h
    · split at h
      · simp at h
      · rename_i h1 h2 h3
        simp only [Prod.mk.injEq, Option.some.injEq] at h
        obtain ⟨hd, hp⟩ := h
        subst hd
        dsimp only
        simp only [Bool.or_eq_true, decide_eq_true_eq, not_or] at h1 h2 h3
        obtain ⟨⟨hc1, hc2⟩, hc3⟩ := h1
        obtain ⟨ho1, ho2⟩ := h2
        obtain ⟨⟨⟨hf1, hf2⟩, hf3⟩, hf4⟩ := h3
        refine ⟨hc1, hc2, hc3, ho1, ho2, rfl, by omega, ?_, ?_, hp.symm⟩
        · simpa using hf3
        · intro hmem
          exact hf4 (by simpa [List.contains] using hmem)

/-- Failure case of create_address_document: the processed set is unchanged. -/
theorem create_none_spec {wid : Int} {p : List String} {f : Feature} {q : List String}
    (h : create_address_document wid p f = (none, q)) : q = p := by
  simp only [create_address_document] at h
  split at h
  · simp at h; exact h.symm
  · split at h
    · simp at h; exact h.symm
    · split at h
      · simp at h; exact h.symm
      · simp at h

/-- C8: when a candidate is accepted, its full address is recorded in the
processed set, and any later candidate resolving to the same full address is
rejected (no document), so one run emits at most one document per full
address. -/
theorem c8_dedup_second_rejected (wid wid2 : Int) (p p' : List String)
    (f1 f2 : Feature) (d : AddressDocument)
    (h : create_address_document wid p f1 = (some d, p'))
    (hfa : fullAddressOf f2.properties = fullAddressOf f1.properties) :
    d.fulladdress ∈ p' ∧ (create_address_document wid2 p' f2).1 = none ∧
    p' = d.fulladdress :: p := by
  obtain ⟨-, -, -, -, -, hdfa, -, -, -, hp⟩ := create_some_spec h
  refine ⟨hp ▸ List.mem_cons_self _ _, ?_, hp⟩
  simp only [create_address_document]
  split
  · rfl
  · split
    · rfl
    · split
      · rfl
      · rename_i hc
        exfalso
        apply hc
        have hmem : fullAddressOf f2.properties ∈ p' := by
          rw [hfa, ← hdfa, hp]
          exact List.mem_cons_self _ _
        simp [hmem]

/-- Witness for C8: feeding the same candidate twice, the second call returns
no document. -/
theorem c8_dedup_second_rejected_witness :
    witnessDoc.fulladdress ∈ [witnessDoc.fulladdress] ∧
    (create_address_document 12 [witnessDoc.fulladdress] ⟨witnessProps⟩).1 = none ∧
    ([witnessDoc.fulladdress] : List String) = witnessDoc.fulladdress :: [] :=
  c8_dedup_second_rejected 11 12 [] [witnessDoc.fulladdress] ⟨witnessProps⟩ ⟨witnessProps⟩
    witnessDoc (by decide) rfl

/-- Documents collected by collectDocs either were already collected or come
from a listed feature via a successful create_address_document call whose
processed set extends the starting one. -/
theorem collectDocs_mem {wid : Int} {target : Nat} :
    ∀ (fs : List Feature) (docs0 : List AddressDocument) (p : List String)
      (d : AddressDocument),
      d ∈ (collectDocs wid target fs docs0 p).1 →
      d ∈ docs0 ∨ ∃ f ∈ fs, ∃ q : List String,
        create_address_document wid q f = (some d, d.fulladdress :: q) ∧ p ⊆ q := by
  intro fs
  induction fs with
  | nil =>
    intro docs0 p d hd
    rw [collectDocs] at hd
    exact Or.inl hd
  | cons f rest ih =>
    intro docs0 p d hd
    rw [collectDocs] at hd
    split at hd
    · exact Or.inl hd
    · rcases hc : create_address_document wid p f with ⟨o, q⟩
      rw [hc] at hd
      cases o with
      | some d1 =>
        have hq : q = d1.fulladdress :: p := (create_some_spec hc).2.2.2.2.2.2.2.2.2
        rcases ih (docs0 ++ [d1]) q d hd with hmem | ⟨f', hf', q', hcr', hsub⟩
        · rcases List.mem_append.1 hmem with hmem0 | hmem1
          · exact Or.inl hmem0
          · have hd1 : d = d1 := by simpa using hmem1
            subst hd1
            refine Or.inr ⟨f, List.mem_cons_self _ _, p, ?_, List.Subset.refl p⟩
            rw [hc, hq]
        · exact Or.inr ⟨f', List.mem_cons_of_mem f hf', q',
            hcr', fun x hx => hsub (hq ▸ List.mem_cons_of_mem _ hx)⟩
      | none =>
        have hq : q = p := create_none_spec hc
        subst hq
        rcases ih docs0 q d hd with hmem | ⟨f', hf', q', hcr', hsub⟩
        · exact Or.inl hmem
        · exact Or.inr ⟨f', List.mem_cons_of_mem f hf', q', hcr', hsub⟩

/-- A feature kept by the bounding-box filter has a present, non-empty extent
whose area is at most the threshold. -/
theorem passes_bbox_spec {cosRad : ℚ → ℚ} {f : Feature}
    (h : passes_bbox_filter cosRad f = true) :
    ∃ l, f.properties.extent = some l ∧ l ≠ [] ∧
      calculate_bbox_area cosRad (some l) ≤ (max_bbox_area : WithTop ℚ) := by
  unfold passes_bbox_filter at h
  rcases he : f.properties.extent with _ | l
  · rw [he] at h; cases h
  · rw [he] at h
    simp only [Bool.and_eq_true, Bool.not_eq_true', decide_eq_true_eq] at h
    exact ⟨l, rfl, by simpa [List.isEmpty_iff] using h.1, h.2⟩

/-- C4: in a generation batch a document is emitted only for a candidate that
passed the bounding-box filter (present extent of area at most the threshold),
has non-empty country, city, street, OSM type and OSM id, whose assembled full
address has stripped length at least 10 and passes looks_like_address, and
whose full address was not in the processed set at the start of the batch. -/
theorem c4_document_emission_conditions (cosRad : ℚ → ℚ) (wid : Int) (target : Nat)
    (feats : List Feature) (p0 : List String) (d : AddressDocument)
    (hd : d ∈ (processBatch cosRad wid target p0 feats).1) :
    ∃ f ∈ feats,
      (∃ l, f.properties.extent = some l ∧ l ≠ [] ∧
        calculate_bbox_area cosRad (some l) ≤ (max_bbox_area : WithTop ℚ)) ∧
      f.properties.country.getD "" ≠ "" ∧ f.properties.city.getD "" ≠ "" ∧
      f.properties.street.getD "" ≠ "" ∧ f.properties.osm_type.getD "" ≠ "" ∧
      f.properties.osm_id.getD "" ≠ "" ∧
      d.fulladdress = fullAddressOf f.properties ∧
      10 ≤ (pyStrip d.fulladdress).length ∧
      looks_like_address d.fulladdress = true ∧
      d.fulladdress ∉ p0 := by
  unfold processBatch at hd
  rcases collectDocs_mem (filter_by_bbox cosRad feats) [] p0 d hd with
    hmem | ⟨f, hf, q, hcr, hsub⟩
  · cases hmem
  · have hfm := List.mem_filter.1 hf
    obtain ⟨hc1, hc2, hc3, ho1, ho2, hdfa, hlen, hlook, hnin, -⟩ := create_some_spec hcr
    exact ⟨f, hfm.1, passes_bbox_spec hfm.2, hc1, hc2, hc3, ho1, ho2, hdfa, hlen, hlook,
      fun hx => hnin (hsub hx)⟩

/-- Witness for C4 on a one-feature batch. -/
theorem c4_document_emission_conditions_witness :
    ∃ f ∈ [(⟨witnessProps⟩ : Feature)],
      (∃ l, f.properties.extent = some l ∧ l ≠ [] ∧
        calculate_bbox_area (fun _ => 1) (some l) ≤ (max_bbox_area : WithTop ℚ)) ∧
      f.properties.country.getD "" ≠ "" ∧ f.properties.city.getD "" ≠ "" ∧
      f.properties.street.getD "" ≠ "" ∧ f.properties.osm_type.getD "" ≠ "" ∧
      f.properties.osm_id.getD "" ≠ "" ∧
      witnessDoc.fulladdress = fullAddressOf f.properties ∧
      10 ≤ (pyStrip witnessDoc.fulladdress).length ∧
      looks_like_address witnessDoc.fulladdress = true ∧
      witnessDoc.fulladdress ∉ ([] : List String) := by
  have harea : calculate_bbox_area (fun _ => 1) (some [(0:ℚ), 0, 0, 0])
      = ((0:ℚ) : WithTop ℚ) := by
    simp [calculate_bbox_area]
  have hle : calculate_bbox_area (fun _ => 1) (some [(0:ℚ), 0, 0, 0])
      ≤ ((max_bbox_area : ℚ) : WithTop ℚ) := by
    rw [harea]
    exact WithTop.coe_le_coe.2 (by decide)
  have hpass : passes_bbox_filter (fun _ => 1) (⟨witnessProps⟩ : Feature) = true := by
    show (!(([(0:ℚ), 0, 0, 0] : List ℚ).isEmpty) &&
      decide (calculate_bbox_area (fun _ => 1) (some [(0:ℚ), 0, 0, 0]) ≤
        ((max_bbox_area : ℚ) : WithTop ℚ))) = true
    simp only [Bool.and_eq_true, decide_eq_true_eq]
    exact ⟨rfl, hle⟩
  have hfil : filter_by_bbox (fun _ => 1) [(⟨witnessProps⟩ : Feature)]
      = [(⟨witnessProps⟩ : Feature)] := by
    simp [filter_by_bbox, List.filter, hpass]
  have hcreate : create_address_document 11 [] (⟨witnessProps⟩ : Feature)
      = (some witnessDoc, [witnessDoc.fulladdress]) := by decide
  have hbatch : processBatch (fun _ => 1) 11 30 [] [(⟨witnessProps⟩ : Feature)]
      = ([witnessDoc], [witnessDoc.fulladdress]) := by
    simp [processBatch, hfil, collectDocs, hcreate]
  exact c4_document_emission_conditions (fun _ => 1) 11 30 [⟨witnessProps⟩] [] witnessDoc
    (by rw [hbatch]; exact List.mem_singleton.2 rfl)
